import Mathlib

/-!
Shallow embedding of `rcapi.py` (HaritzPuerto/RCApi): the multi-provider
bibliographic metadata resolution and title-matching layer.

Python strings are modelled as Lean `String`; character classes follow the
ASCII fragment of Python's `str.strip` / `re` `\s` / `str.lower` semantics,
which is the fragment the repository's titles and provider names exercise.
Python values that may be `None` are modelled as `Option`; Python exceptions
are modelled by the `PyErr` error type, so a fallible Python function of
result type `a` becomes a Lean function into `Except PyErr a`.
-/

/-- Python exceptions (and, for comparison with the specification's error
taxonomy, the distinguished `unknownProvider` failure the spec asks for,
which `rcapi.py` itself never produces). The string argument records the
attribute/name/key the exception mentions. -/
inductive PyErr where
  | attributeError (ctx : String)
  | nameError (n : String)
  | unboundLocalError (n : String)
  | keyError (k : String)
  | typeError
  | noSuchElement
  | unknownProvider
deriving DecidableEq, Repr

/-! ## Title normalization: `clean_title` (rcapi.py line 44) and
`title_match` (line 48)

`clean_title(title)` is
`re.sub("\s+", " ", title.strip(" \"'?!.,")).lower()`:
strip the characters ` "'?!.,` from both ends, collapse every run of
whitespace to a single space, lower-case. -/

/-- The characters stripped from both ends: `" \"'?!.,"`. -/
def stripChars : List Char := [' ', '"', '\'', '?', '!', '.', ',']

/-- The characters matched by the regex class `\s` (ASCII fragment). -/
def wsChars : List Char := [' ', '\t', '\n', '\r', '\x0B', '\x0C']

def pyIsSpace (c : Char) : Bool := wsChars.contains c

def inStripSet (c : Char) : Bool := stripChars.contains c

/-- `l` with leading and trailing strip-set characters removed
(Python `str.strip(" \"'?!.,")` on the character list). -/
def stripList (l : List Char) : List Char :=
  ((l.dropWhile inStripSet).reverse.dropWhile inStripSet).reverse

/-- Python `title.strip(" \"'?!.,")`. -/
def pyStrip (s : String) : String := String.mk (stripList s.data)

/-- One pass of `re.sub("\s+", " ", ·)`: the flag records whether the
previous character was part of a whitespace run already replaced. -/
def collapseAux : Bool → List Char → List Char
  | _, [] => []
  | prev, c :: cs =>
    if pyIsSpace c then
      if prev then collapseAux true cs else ' ' :: collapseAux true cs
    else c :: collapseAux false cs

/-- `re.sub("\s+", " ", ·)` on a character list: every maximal run of
whitespace becomes a single space. -/
def collapseWs (l : List Char) : List Char := collapseAux false l

/-- The ASCII case table used by `str.lower`. -/
def upperLowerTable : List (Char × Char) :=
  [('A', 'a'), ('B', 'b'), ('C', 'c'), ('D', 'd'), ('E', 'e'), ('F', 'f'),
   ('G', 'g'), ('H', 'h'), ('I', 'i'), ('J', 'j'), ('K', 'k'), ('L', 'l'),
   ('M', 'm'), ('N', 'n'), ('O', 'o'), ('P', 'p'), ('Q', 'q'), ('R', 'r'),
   ('S', 's'), ('T', 't'), ('U', 'u'), ('V', 'v'), ('W', 'w'), ('X', 'x'),
   ('Y', 'y'), ('Z', 'z')]

/-- Python `str.lower` on one character (ASCII fragment). -/
def pyLowerChar (c : Char) : Char :=
  match upperLowerTable.find? (fun p => p.1 == c) with
  | some p => p.2
  | none => c

/-- Python `str.lower` (ASCII fragment). -/
def pyLower (s : String) : String := String.mk (s.data.map pyLowerChar)

/-- `clean_title` (rcapi.py line 44):
`re.sub("\s+", " ", title.strip(" \"'?!.,")).lower()`. -/
def clean_title (title : String) : String :=
  pyLower (String.mk (collapseWs (pyStrip title).data))

/-- `title_match` (rcapi.py line 48):
`clean_title(title0) == clean_title(title1)`. -/
def title_match (title0 title1 : String) : Bool :=
  clean_title title0 == clean_title title1

/-- `title_match` as called on possibly-`None` arguments (as rcapi.py does
with the result of `get_xml_node_value`, which returns `None` for a missing
node): `None.strip(...)` inside `clean_title` raises `AttributeError`. -/
def title_matchN (title0 title1 : Option String) : Except PyErr Bool :=
  match title0, title1 with
  | some a, some b => .ok (title_match a b)
  | _, _ => .error (.attributeError "strip")

/-! ## RePEc URL construction (rcapi.py lines 135-182) -/

/-- The `REPEC_API_URL` template applied by `str.format` to two arguments
in order: `https://api.repec.org/call.cgi?code=<first>&getref=<second>`. -/
def repecCallCgiUrl (first second : String) : String :=
  "https://api.repec.org/call.cgi?code=" ++ first ++ "&getref=" ++ second

/-- `repec_get_api_url (handle, token)` (rcapi.py line 147):
`REPEC_API_URL.format(token, handle)`, so the `code` slot receives the
`token` parameter and the `getref` slot receives the `handle` parameter. -/
def repec_get_api_url (handle token : String) : String :=
  repecCallCgiUrl token handle

/-- The URL built inside `repec_get_meta (token, handle)` (rcapi.py
line 173): the call `repec_get_api_url(token, handle)` passes `token`
positionally into the `handle` parameter and `handle` into the `token`
parameter. -/
def repec_meta_url (token handle : String) : String :=
  repec_get_api_url token handle

/-- `repec_get_handle` (rcapi.py line 154), abstracted over the parsed
search page: the argument is `None` when `soup.find` locates no
`ol.list-group` listing element (so `ol.findChildren()` raises
`AttributeError`), and otherwise carries, for each child of the listing,
the text of its `<i>` element (`None` when the child has no `<i>`, in
which case `.get_text()` on `None` raises). Returns the first child's
handle, or `None` when the listing has no children. -/
def repec_get_handle (listGroup : Option (List (Option String))) :
    Except PyErr (Option String) :=
  match listGroup with
  | none => .error (.attributeError "findChildren")
  | some [] => .ok none
  | some (li :: _) =>
    match li with
    | none => .error (.attributeError "get_text")
    | some h => .ok (some h)

/-- `search_ssrn` (rcapi.py line 364), abstracted over the browser session:
the argument is the `href` of the first element matching
`//*[@class='title optClickTitle']` on the results page, or `None` when no
such element exists, in which case Selenium's `find_element_by_xpath`
raises `NoSuchElementException`. -/
def search_ssrn (resultHref : Option String) : Except PyErr String :=
  match resultHref with
  | none => .error .noSuchElement
  | some href => .ok href

/-! ## Theorems for claims C1 and C4 -/

/-- C1: the claim says `matches(null, "Some Title")` must return false
without raising; in `rcapi.py`, `title_match(None, "Some Title")` instead
raises `AttributeError` (`None.strip` inside `clean_title`), and so does
every call in which either argument is `None`. -/
theorem c1_title_match_none_raises :
    title_matchN none (some "Some Title") = .error (.attributeError "strip") ∧
    title_matchN (some "Some Title") none = .error (.attributeError "strip") ∧
    title_matchN none none = .error (.attributeError "strip") := by
  exact ⟨rfl, rfl, rfl⟩

/-- C4: the claim (and the RePEc API) say the metadata-lookup URL is
`code=<token>&getref=<handle>`; the call `repec_get_api_url(token, handle)`
inside `repec_get_meta` feeds `token` into the `handle` parameter and vice
versa, so the URL actually issued is `code=<handle>&getref=<token>`. -/
theorem c4_repec_meta_url_swapped :
    repec_meta_url "TOKEN123" "RePEc:wop:calsdi:qt8h21s34j" =
      "https://api.repec.org/call.cgi?code=RePEc:wop:calsdi:qt8h21s34j&getref=TOKEN123" ∧
    repec_meta_url "TOKEN123" "RePEc:wop:calsdi:qt8h21s34j" ≠
      "https://api.repec.org/call.cgi?code=TOKEN123&getref=RePEc:wop:calsdi:qt8h21s34j" := by
  exact ⟨rfl, by decide⟩

/-! ## Python values and dicts (for the Dimensions record shaping and the
consolidated search functions)

`PyVal` covers the value shapes the Dimensions paths manipulate: `None`,
strings, lists of strings (`terms`, `concepts`, `keywords`), string-valued
dicts (the nested `journal` object), and `other n`, an abstract stand-in for
any further payload (author lists, publication lists, ...), on which the
modelled operations behave as on an unsupported type. A Python dict is an
association list looked up by key. -/
inductive PyVal where
  | pynone
  | str (s : String)
  | strList (l : List String)
  | dict (d : List (String × String))
  | other (n : Nat)
deriving DecidableEq, Repr

def pyKeys (d : List (String × PyVal)) : List String := d.map Prod.fst

def pyLookup (d : List (String × PyVal)) (k : String) : Option PyVal :=
  (d.find? (fun p => p.1 == k)).map Prod.snd

def strLookup (d : List (String × String)) (k : String) : Option String :=
  (d.find? (fun p => p.1 == k)).map Prod.snd

/-- Python `d[k]` on a dict: `KeyError` when the key is absent. -/
def pyGetItem (d : List (String × PyVal)) (k : String) : Except PyErr PyVal :=
  match pyLookup d k with
  | some v => .ok v
  | none => .error (.keyError k)

/-- Python `d[k] = v`. -/
def pySetItem (d : List (String × PyVal)) (k : String) (v : PyVal) :
    List (String × PyVal) :=
  if (pyLookup d k).isSome then
    d.map (fun p => if p.1 == k then (k, v) else p)
  else d ++ [(k, v)]

/-- Python `list(set(a) & set(b))` on two key lists, up to the (arbitrary)
set iteration order: the distinct elements of `a` that also occur in `b`. -/
def pySetInterKeys (a b : List String) : List String :=
  a.dedup.filter (fun k => b.contains k)

/-- Python `x + y` on the modelled values: list and string concatenation;
anything else (including `None`) raises `TypeError`. -/
def pyAdd : PyVal → PyVal → Except PyErr PyVal
  | .strList a, .strList b => .ok (.strList (a ++ b))
  | .str a, .str b => .ok (.str (a ++ b))
  | _, _ => .error .typeError

/-- Python `list(set(x))` on a modelled value: deduplicate a list (the set
iteration order is arbitrary; the theorems below only use the underlying
set); iterating a non-list is modelled as `TypeError`. -/
def pySetOf : PyVal → Except PyErr PyVal
  | .strList l => .ok (.strList l.dedup)
  | _ => .error .typeError

/-- Python `x[k]` for a string key on a (string-valued) nested value:
`KeyError` when a dict lacks the key, `TypeError` when `x` is not a dict. -/
def pyIndexStr : PyVal → String → Except PyErr String
  | .dict d, k =>
    match strLookup d k with
    | some v => .ok v
    | none => .error (.keyError k)
  | _, _ => .error .typeError

/-! ## `format_dimensions` (rcapi.py lines 267-274) -/

def dimAllow1 : List String :=
  ["authors", "doi", "linkout", "concepts", "terms", "journal"]

def dimAllow2 : List String :=
  ["authors", "doi", "linkout", "keywords", "journal_title"]

/-- `filt_keys = list(set(dimensions_md.keys()) & set(dimAllow1))`
(rcapi.py line 268). -/
def dimFiltKeys (md : List (String × PyVal)) : List String :=
  pySetInterKeys (pyKeys md) dimAllow1

/-- `pubs_dict`, the dict comprehension over `filt_keys` reading
`dimensions_md[k]` (rcapi.py line 269); every `k` in `filt_keys` is a key
of `md`, so the `getD` default is never consulted. -/
def dimPubs1 (md : List (String × PyVal)) : List (String × PyVal) :=
  (dimFiltKeys md).map (fun k => (k, (pyLookup md k).getD PyVal.pynone))

/-- `format_dimensions(dimensions_md)` (rcapi.py line 267): intersect the
key set with `dimAllow1`, build `pubs_dict` from those keys, derive
`keywords = list(set(pubs_dict["terms"] + pubs_dict["concepts"]))` and
`journal_title = pubs_dict["journal"]["title"]`, then rebuild the dict from
`list(set(filt_keys) & set(dimAllow2)) + ["keywords", "journal_title"]`. -/
def format_dimensions (md : List (String × PyVal)) :
    Except PyErr (List (String × PyVal)) :=
  match pyGetItem (dimPubs1 md) "terms" with
  | .error e => .error e
  | .ok t =>
  match pyGetItem (dimPubs1 md) "concepts" with
  | .error e => .error e
  | .ok c =>
  match pyAdd t c with
  | .error e => .error e
  | .ok tc =>
  match pySetOf tc with
  | .error e => .error e
  | .ok kw =>
  match pyGetItem (pySetItem (dimPubs1 md) "keywords" kw) "journal" with
  | .error e => .error e
  | .ok j =>
  match pyIndexStr j "title" with
  | .error e => .error e
  | .ok jt =>
  .ok ((pySetInterKeys (dimFiltKeys md) dimAllow2 ++ ["keywords", "journal_title"]).map
    (fun k => (k, (pyLookup (pySetItem (pySetItem (dimPubs1 md) "keywords" kw)
      "journal_title" (.str jt)) k).getD PyVal.pynone)))

/-! ## Consolidated entry points (rcapi.py lines 397-420) -/

/-- The adapter invocation `title_search` dispatches to: the record of which
defined function was called with which title (its return value is returned
unchanged by the dispatcher). -/
inductive TitleSearchCall where
  | getDimensionsMd (title : String)
  | searchSsrn (title : String)
deriving DecidableEq, Repr

/-- `title_search(title, api_name)` (rcapi.py line 407). The module defines
no function named `get_epmc_page` or `oa_lookup_pub_uris` (the EuropePMC and
OpenAIRE adapters are actually named `europepmc_title_search` and
`openaire_title_search`), so the `"europepmc"` and `"openaire"` branches
raise `NameError` at the call; when no branch runs, the trailing
`return titlesearch_result` reads a never-assigned local and raises
`UnboundLocalError`. -/
def title_search (title api_name : String) : Except PyErr TitleSearchCall :=
  if pyLower api_name = "dimensions" then .ok (.getDimensionsMd title)
  else if pyLower api_name = "ssrn" then .ok (.searchSsrn title)
  else if pyLower api_name = "europepmc" then .error (.nameError "get_epmc_page")
  else if pyLower api_name = "openaire" then .error (.nameError "oa_lookup_pub_uris")
  else .error (.unboundLocalError "titlesearch_result")

/-- `full_text_search(search_term, api_name)` (rcapi.py line 397),
abstracted over the Dimensions response: `dimResponse` is `none` when
`dimensions_run_exact_string_search` returns a falsy value, otherwise the
response dict. Only a truthy `"dimensions"` response assigns `ss_result`;
every other path reaches `return ss_result` with the local unassigned. -/
def full_text_search (dimResponse : Option (List (String × PyVal)))
    (search_term api_name : String) : Except PyErr PyVal :=
  if pyLower api_name = "dimensions" then
    match dimResponse with
    | some d =>
      match pyLookup d "publications" with
      | some v => .ok v
      | none => .error (.keyError "publications")
    | none => .error (.unboundLocalError "ss_result")
  else .error (.unboundLocalError "ss_result")

/-! ## Theorems for claims C2 and C5 -/

/-- C2: the claim says each recognized provider name, case-insensitively,
is dispatched to its adapter whose result is returned. This holds for
`"dimensions"` and `"ssrn"` (including mixed case), but `"europepmc"` and
`"openaire"` dispatch to the undefined names `get_epmc_page` and
`oa_lookup_pub_uris` and raise `NameError` instead of returning any
adapter's result. -/
theorem c2_title_search_dispatch :
    title_search "Some Title" "dimensions" = .ok (.getDimensionsMd "Some Title") ∧
    title_search "Some Title" "Dimensions" = .ok (.getDimensionsMd "Some Title") ∧
    title_search "Some Title" "SSRN" = .ok (.searchSsrn "Some Title") ∧
    title_search "Some Title" "europepmc" = .error (.nameError "get_epmc_page") ∧
    title_search "Some Title" "EuropePMC" = .error (.nameError "get_epmc_page") ∧
    title_search "Some Title" "openaire" = .error (.nameError "oa_lookup_pub_uris") := by
  refine ⟨rfl, ?_, ?_, rfl, ?_, rfl⟩ <;> rfl

/-- C5 counterexample: the claim says dispatching an unrecognized provider
name fails with the distinguished, typed `UnknownProvider` error. At the
unrecognized name `"zenodo"` the dispatcher instead raises
`UnboundLocalError` on the never-assigned result variable, which is not the
distinguished `UnknownProvider` failure. -/
theorem c5_cex_unknown_provider :
    title_search "Some Title" "zenodo" =
      .error (.unboundLocalError "titlesearch_result") ∧
    title_search "Some Title" "zenodo" ≠
      (.error .unknownProvider : Except PyErr TitleSearchCall) := by
  have h1 : title_search "Some Title" "zenodo" =
      .error (.unboundLocalError "titlesearch_result") := rfl
  refine ⟨h1, ?_⟩
  rw [h1]
  intro h
  injection h with h'
  exact absurd h' (by decide)

/-- C5 amended: dispatching an unrecognized provider name never silently
returns a result, but the failure is an (untyped) `UnboundLocalError` on
the never-assigned result variable — in `title_search` and in
`full_text_search` alike — not a distinguished `UnknownProvider` error. -/
theorem c5_unrecognized_raises_unbound_local :
    (∀ title name, pyLower name ≠ "dimensions" → pyLower name ≠ "ssrn" →
      pyLower name ≠ "europepmc" → pyLower name ≠ "openaire" →
      title_search title name = .error (.unboundLocalError "titlesearch_result")) ∧
    (∀ resp term name, pyLower name ≠ "dimensions" →
      full_text_search resp term name = .error (.unboundLocalError "ss_result")) := by
  constructor
  · intro title name h1 h2 h3 h4
    simp only [title_search, if_neg h1, if_neg h2, if_neg h3, if_neg h4]
  · intro resp term name h1
    simp only [full_text_search, if_neg h1]

/-- C5 witness: the amended theorem applied at the concrete unrecognized
name `"zenodo"`. -/
theorem c5_witness :
    title_search "T" "zenodo" = .error (.unboundLocalError "titlesearch_result") ∧
    full_text_search none "T" "zenodo" = .error (.unboundLocalError "ss_result") := by
  exact ⟨c5_unrecognized_raises_unbound_local.1 "T" "zenodo"
      (by decide) (by decide) (by decide) (by decide),
    c5_unrecognized_raises_unbound_local.2 none "T" "zenodo" (by decide)⟩

/-! ## Association-list dict lemmas -/

theorem pyLookup_eq_none_iff (d : List (String × PyVal)) (x : String) :
    pyLookup d x = none ↔ x ∉ pyKeys d := by
  simp only [pyLookup, Option.map_eq_none', List.find?_eq_none, pyKeys,
    List.mem_map, beq_iff_eq]
  constructor
  · rintro h ⟨p, hp, rfl⟩
    exact h p hp rfl
  · intro h p hp hpx
    exact h ⟨p, hp, hpx⟩

theorem mem_keys_of_pyLookup (d : List (String × PyVal)) (x : String)
    (v : PyVal) (h : pyLookup d x = some v) : x ∈ pyKeys d := by
  by_contra hx
  rw [← pyLookup_eq_none_iff] at hx
  rw [h] at hx
  exact Option.noConfusion hx

theorem pyLookup_map_self (ks : List String) (f : String → PyVal) (x : String) :
    pyLookup (ks.map (fun k => (k, f k))) x =
      if x ∈ ks then some (f x) else none := by
  induction ks with
  | nil => simp [pyLookup]
  | cons k ks ih =>
    simp only [List.map_cons]
    by_cases hk : k = x
    · subst hk
      have hp : (fun p : String × PyVal => p.1 == k) (k, f k) = true := by simp
      simp [pyLookup, List.find?_cons_of_pos _ hp]
    · have hne : ¬((fun p : String × PyVal => p.1 == x) (k, f k) = true) := by
        simpa using hk
      have hstep : pyLookup ((k, f k) :: List.map (fun k => (k, f k)) ks) x =
          pyLookup (List.map (fun k => (k, f k)) ks) x := by
        unfold pyLookup
        exact congrArg (Option.map Prod.snd) (List.find?_cons_of_neg _ hne)
      rw [hstep, ih]
      by_cases hx : x ∈ ks
      · simp [hx, List.mem_cons]
      · simp [hx, List.mem_cons, Ne.symm hk]

theorem mem_pySetInterKeys (a b : List String) (x : String) :
    x ∈ pySetInterKeys a b ↔ x ∈ a ∧ x ∈ b := by
  simp [pySetInterKeys, List.mem_filter, List.mem_dedup, List.contains,
    List.elem_iff]

theorem pyLookup_append (d₁ d₂ : List (String × PyVal)) (x : String) :
    pyLookup (d₁ ++ d₂) x = (pyLookup d₁ x).or (pyLookup d₂ x) := by
  cases h : d₁.find? (fun p => p.1 == x) <;>
    simp [pyLookup, List.find?_append, h]

theorem pyLookup_single (k : String) (v : PyVal) (x : String) :
    pyLookup [(k, v)] x = if k = x then some v else none := by
  by_cases hk : k = x
  · subst hk
    have hp : (fun p : String × PyVal => p.1 == k) (k, v) = true := by simp
    simp [pyLookup, List.find?_cons_of_pos _ hp]
  · have hne : ¬((fun p : String × PyVal => p.1 == x) (k, v) = true) := by
      simpa using hk
    simp [pyLookup, List.find?_cons_of_neg _ hne, hk]

theorem pySetItem_of_absent (d : List (String × PyVal)) (k : String)
    (v : PyVal) (h : pyLookup d k = none) :
    pySetItem d k v = d ++ [(k, v)] := by
  simp [pySetItem, h]

theorem pyLookup_dimPubs1 (md : List (String × PyVal)) (x : String) :
    pyLookup (dimPubs1 md) x =
      if x ∈ dimFiltKeys md then some ((pyLookup md x).getD PyVal.pynone)
      else none :=
  pyLookup_map_self _ _ x

/-! ## Theorems for claims C8 and C10 -/

/-- C8: on any Dimensions record carrying `terms`, `concepts`, and a
`journal` object with a `title`, `format_dimensions` yields `keywords`
equal (as a deduplicated set, order-independent) to the union of `terms`
and `concepts`, `journal_title` equal to the journal object's title, drops
the `terms`/`concepts`/`journal` keys, and passes `authors`, `doi`, and
`linkout` through exactly when present in the input. -/
theorem c8_format_dimensions (md : List (String × PyVal)) (ts cs : List String)
    (jd : List (String × String)) (jt : String)
    (hterms : pyLookup md "terms" = some (.strList ts))
    (hconcepts : pyLookup md "concepts" = some (.strList cs))
    (hjournal : pyLookup md "journal" = some (.dict jd))
    (hjtitle : strLookup jd "title" = some jt) :
    ∃ out, format_dimensions md = .ok out ∧
      (∃ kws, pyLookup out "keywords" = some (.strList kws) ∧ kws.Nodup ∧
        (∀ x, x ∈ kws ↔ x ∈ ts ∨ x ∈ cs)) ∧
      pyLookup out "journal_title" = some (.str jt) ∧
      pyLookup out "terms" = none ∧
      pyLookup out "concepts" = none ∧
      pyLookup out "journal" = none ∧
      pyLookup out "authors" = pyLookup md "authors" ∧
      pyLookup out "doi" = pyLookup md "doi" ∧
      pyLookup out "linkout" = pyLookup md "linkout" := by
  have hTf : "terms" ∈ dimFiltKeys md := by
    rw [dimFiltKeys, mem_pySetInterKeys]
    exact ⟨mem_keys_of_pyLookup _ _ _ hterms, by decide⟩
  have hCf : "concepts" ∈ dimFiltKeys md := by
    rw [dimFiltKeys, mem_pySetInterKeys]
    exact ⟨mem_keys_of_pyLookup _ _ _ hconcepts, by decide⟩
  have hJf : "journal" ∈ dimFiltKeys md := by
    rw [dimFiltKeys, mem_pySetInterKeys]
    exact ⟨mem_keys_of_pyLookup _ _ _ hjournal, by decide⟩
  have hg1 : pyGetItem (dimPubs1 md) "terms" = .ok (.strList ts) := by
    simp [pyGetItem, pyLookup_dimPubs1, hTf, hterms]
  have hg2 : pyGetItem (dimPubs1 md) "concepts" = .ok (.strList cs) := by
    simp [pyGetItem, pyLookup_dimPubs1, hCf, hconcepts]
  have hK1 : pyLookup (dimPubs1 md) "keywords" = none := by
    rw [pyLookup_dimPubs1, if_neg]
    intro h
    rw [dimFiltKeys, mem_pySetInterKeys] at h
    exact absurd h.2 (by decide)
  have hJT1 : pyLookup (dimPubs1 md) "journal_title" = none := by
    rw [pyLookup_dimPubs1, if_neg]
    intro h
    rw [dimFiltKeys, mem_pySetInterKeys] at h
    exact absurd h.2 (by decide)
  have hpubs2 : pySetItem (dimPubs1 md) "keywords" (.strList ((ts ++ cs).dedup)) =
      dimPubs1 md ++ [("keywords", .strList ((ts ++ cs).dedup))] :=
    pySetItem_of_absent _ _ _ hK1
  have hgJ : pyGetItem (pySetItem (dimPubs1 md) "keywords"
      (.strList ((ts ++ cs).dedup))) "journal" = .ok (.dict jd) := by
    rw [pyGetItem, hpubs2, pyLookup_append, pyLookup_dimPubs1, if_pos hJf, hjournal]
    rfl
  have hJT2 : pyLookup (pySetItem (dimPubs1 md) "keywords"
      (.strList ((ts ++ cs).dedup))) "journal_title" = none := by
    rw [hpubs2, pyLookup_append, hJT1, pyLookup_single, Option.none_or, if_neg]
    decide
  have hpubs3 : pySetItem (pySetItem (dimPubs1 md) "keywords"
        (.strList ((ts ++ cs).dedup))) "journal_title" (.str jt) =
      dimPubs1 md ++ [("keywords", .strList ((ts ++ cs).dedup))] ++
        [("journal_title", .str jt)] := by
    rw [pySetItem_of_absent _ _ _ hJT2, hpubs2]
  have hfmt : format_dimensions md =
      .ok ((pySetInterKeys (dimFiltKeys md) dimAllow2 ++
          ["keywords", "journal_title"]).map
        (fun k => (k, (pyLookup (pySetItem (pySetItem (dimPubs1 md) "keywords"
          (.strList ((ts ++ cs).dedup))) "journal_title" (.str jt))
            k).getD PyVal.pynone))) := by
    simp only [format_dimensions, hg1, hg2, pyAdd, pySetOf, hgJ, pyIndexStr,
      hjtitle]
  have pass : ∀ x, x ∈ dimAllow1 → x ∈ dimAllow2 → ¬x = "keywords" →
      ¬x = "journal_title" →
      pyLookup ((pySetInterKeys (dimFiltKeys md) dimAllow2 ++
          ["keywords", "journal_title"]).map
        (fun k => (k, (pyLookup (pySetItem (pySetItem (dimPubs1 md) "keywords"
          (.strList ((ts ++ cs).dedup))) "journal_title" (.str jt))
            k).getD PyVal.pynone))) x = pyLookup md x := by
    intro x h1 h2 hk hj
    cases hA : pyLookup md x with
    | none =>
      have hxk : x ∉ pyKeys md := (pyLookup_eq_none_iff _ _).mp hA
      have hxf : x ∉ dimFiltKeys md := by
        rw [dimFiltKeys, mem_pySetInterKeys]
        rintro ⟨h, _⟩
        exact hxk h
      rw [pyLookup_map_self, if_neg]
      intro hmem
      rcases List.mem_append.mp hmem with hm | hm
      · exact hxf ((mem_pySetInterKeys _ _ _).mp hm).1
      · rcases List.mem_cons.mp hm with hm | hm
        · exact hk hm
        · rcases List.mem_cons.mp hm with hm | hm
          · exact hj hm
          · exact absurd hm (List.not_mem_nil x)
    | some v =>
      have hxk : x ∈ pyKeys md := mem_keys_of_pyLookup _ _ _ hA
      have hxf : x ∈ dimFiltKeys md := by
        rw [dimFiltKeys, mem_pySetInterKeys]
        exact ⟨hxk, h1⟩
      have hmem : x ∈ pySetInterKeys (dimFiltKeys md) dimAllow2 ++
          ["keywords", "journal_title"] :=
        List.mem_append.mpr (Or.inl ((mem_pySetInterKeys _ _ _).mpr ⟨hxf, h2⟩))
      rw [pyLookup_map_self, if_pos hmem, hpubs3, pyLookup_append,
        pyLookup_append, pyLookup_dimPubs1, if_pos hxf, hA, Option.or_some,
        Option.or_some]
      rfl
  refine ⟨_, hfmt, ?_, ?_, ?_, ?_, ?_, ?_, ?_, ?_⟩
  · -- keywords
    refine ⟨(ts ++ cs).dedup, ?_, List.nodup_dedup _, ?_⟩
    · rw [pyLookup_map_self, if_pos (by simp), hpubs3, pyLookup_append,
        pyLookup_append, hK1, pyLookup_single, Option.none_or, if_pos rfl,
        Option.or_some, Option.getD_some]
    · intro x
      simp [List.mem_dedup, List.mem_append]
  · -- journal_title
    rw [pyLookup_map_self, if_pos (by simp), hpubs3, pyLookup_append,
      pyLookup_append, hJT1, pyLookup_single, Option.none_or, if_neg (by decide),
      Option.none_or, pyLookup_single, if_pos rfl, Option.getD_some]
  · -- terms is gone
    rw [pyLookup_map_self, if_neg]
    intro h
    rcases List.mem_append.mp h with h | h
    · exact absurd ((mem_pySetInterKeys _ _ _).mp h).2 (by decide)
    · exact absurd h (by decide)
  · -- concepts is gone
    rw [pyLookup_map_self, if_neg]
    intro h
    rcases List.mem_append.mp h with h | h
    · exact absurd ((mem_pySetInterKeys _ _ _).mp h).2 (by decide)
    · exact absurd h (by decide)
  · -- journal is gone
    rw [pyLookup_map_self, if_neg]
    intro h
    rcases List.mem_append.mp h with h | h
    · exact absurd ((mem_pySetInterKeys _ _ _).mp h).2 (by decide)
    · exact absurd h (by decide)
  · exact pass "authors" (by decide) (by decide) (by decide) (by decide)
  · exact pass "doi" (by decide) (by decide) (by decide) (by decide)
  · exact pass "linkout" (by decide) (by decide) (by decide) (by decide)

/-- C8 witness: `c8_format_dimensions` applied to the spec's concrete
record `terms=["a","b"]`, `concepts=["b","c"]`, `journal.title="J"`
with a `doi` field that must survive. -/
theorem c8_witness :
    ∃ out, format_dimensions
        [("terms", PyVal.strList ["a", "b"]),
         ("concepts", PyVal.strList ["b", "c"]),
         ("journal", PyVal.dict [("title", "J")]),
         ("doi", PyVal.str "10.1/x")] = .ok out ∧
      (∃ kws, pyLookup out "keywords" = some (.strList kws) ∧ kws.Nodup ∧
        (∀ x, x ∈ kws ↔ x ∈ ["a", "b"] ∨ x ∈ ["b", "c"])) ∧
      pyLookup out "journal_title" = some (.str "J") ∧
      pyLookup out "terms" = none ∧
      pyLookup out "concepts" = none ∧
      pyLookup out "journal" = none ∧
      pyLookup out "authors" = pyLookup
        [("terms", PyVal.strList ["a", "b"]),
         ("concepts", PyVal.strList ["b", "c"]),
         ("journal", PyVal.dict [("title", "J")]),
         ("doi", PyVal.str "10.1/x")] "authors" ∧
      pyLookup out "doi" = pyLookup
        [("terms", PyVal.strList ["a", "b"]),
         ("concepts", PyVal.strList ["b", "c"]),
         ("journal", PyVal.dict [("title", "J")]),
         ("doi", PyVal.str "10.1/x")] "doi" ∧
      pyLookup out "linkout" = pyLookup
        [("terms", PyVal.strList ["a", "b"]),
         ("concepts", PyVal.strList ["b", "c"]),
         ("journal", PyVal.dict [("title", "J")]),
         ("doi", PyVal.str "10.1/x")] "linkout" :=
  c8_format_dimensions _ ["a", "b"] ["b", "c"] [("title", "J")] "J"
    rfl rfl rfl rfl

/-- The implicit well-typedness of a Dimensions record: `terms` and
`concepts`, when present, hold lists, and `journal`, when present, holds a
nested object — which is what the Dimensions API returns for these keys. -/
def dimWellTyped (md : List (String × PyVal)) : Bool :=
  (match pyLookup md "terms" with
   | some (.strList _) => true
   | none => true
   | _ => false) &&
  (match pyLookup md "concepts" with
   | some (.strList _) => true
   | none => true
   | _ => false) &&
  (match pyLookup md "journal" with
   | some (.dict _) => true
   | none => true
   | _ => false)

/-- Whether the record lacks `terms`, `concepts`, or `journal` (or its
journal object lacks a `title`) — the keys `format_dimensions` demands. -/
def dimMissingRequired (md : List (String × PyVal)) : Bool :=
  (pyLookup md "terms").isNone ||
  (pyLookup md "concepts").isNone ||
  (match pyLookup md "journal" with
   | none => true
   | some (.dict jd) => (strLookup jd "title").isNone
   | some _ => false)

theorem pyGetItem_dimPubs1_absent (md : List (String × PyVal)) (k : String)
    (h : pyLookup md k = none) :
    pyGetItem (dimPubs1 md) k = .error (.keyError k) := by
  have hk : k ∉ dimFiltKeys md := by
    rw [dimFiltKeys, mem_pySetInterKeys]
    rintro ⟨hm, _⟩
    exact absurd hm ((pyLookup_eq_none_iff md k).mp h)
  simp [pyGetItem, pyLookup_dimPubs1, hk]

/-- C10: `format_dimensions` implicitly requires `terms`, `concepts`, and
a titled `journal` object: on every well-typed Dimensions record missing
any of them it raises `KeyError` rather than returning a record. -/
theorem c10_format_dimensions_missing_key (md : List (String × PyVal))
    (hwt : dimWellTyped md = true) (hmiss : dimMissingRequired md = true) :
    ∃ k, format_dimensions md = .error (.keyError k) := by
  rw [dimWellTyped, Bool.and_eq_true, Bool.and_eq_true] at hwt
  obtain ⟨⟨hwT, hwC⟩, hwJ⟩ := hwt
  rw [dimMissingRequired, Bool.or_eq_true, Bool.or_eq_true] at hmiss
  cases hT : pyLookup md "terms" with
  | none =>
    refine ⟨"terms", ?_⟩
    simp [format_dimensions, pyGetItem_dimPubs1_absent md "terms" hT]
  | some vT =>
    rw [hT] at hwT
    cases vT with
    | strList ts =>
      have hTf : "terms" ∈ dimFiltKeys md := by
        rw [dimFiltKeys, mem_pySetInterKeys]
        exact ⟨mem_keys_of_pyLookup _ _ _ hT, by decide⟩
      have hg1 : pyGetItem (dimPubs1 md) "terms" = .ok (.strList ts) := by
        simp [pyGetItem, pyLookup_dimPubs1, hTf, hT]
      cases hC : pyLookup md "concepts" with
      | none =>
        refine ⟨"concepts", ?_⟩
        simp [format_dimensions, hg1,
          pyGetItem_dimPubs1_absent md "concepts" hC]
      | some vC =>
        rw [hC] at hwC
        cases vC with
        | strList cs =>
          have hCf : "concepts" ∈ dimFiltKeys md := by
            rw [dimFiltKeys, mem_pySetInterKeys]
            exact ⟨mem_keys_of_pyLookup _ _ _ hC, by decide⟩
          have hg2 : pyGetItem (dimPubs1 md) "concepts" = .ok (.strList cs) := by
            simp [pyGetItem, pyLookup_dimPubs1, hCf, hC]
          have hK1 : pyLookup (dimPubs1 md) "keywords" = none := by
            rw [pyLookup_dimPubs1, if_neg]
            intro h
            rw [dimFiltKeys, mem_pySetInterKeys] at h
            exact absurd h.2 (by decide)
          have hpubs2 : pySetItem (dimPubs1 md) "keywords"
              (.strList ((ts ++ cs).dedup)) =
              dimPubs1 md ++ [("keywords", .strList ((ts ++ cs).dedup))] :=
            pySetItem_of_absent _ _ _ hK1
          cases hJ : pyLookup md "journal" with
          | none =>
            refine ⟨"journal", ?_⟩
            have hJn : pyGetItem (pySetItem (dimPubs1 md) "keywords"
                (.strList ((ts ++ cs).dedup))) "journal" =
                .error (.keyError "journal") := by
              have hJf : "journal" ∉ dimFiltKeys md := by
                rw [dimFiltKeys, mem_pySetInterKeys]
                rintro ⟨hm, _⟩
                exact absurd hm ((pyLookup_eq_none_iff md "journal").mp hJ)
              rw [pyGetItem, hpubs2, pyLookup_append, pyLookup_dimPubs1,
                if_neg hJf, Option.none_or, pyLookup_single, if_neg (by decide)]
            simp [format_dimensions, hg1, hg2, pyAdd, pySetOf, hJn]
          | some vJ =>
            rw [hJ] at hwJ
            cases vJ with
            | dict jd =>
              have hJf : "journal" ∈ dimFiltKeys md := by
                rw [dimFiltKeys, mem_pySetInterKeys]
                exact ⟨mem_keys_of_pyLookup _ _ _ hJ, by decide⟩
              have hgJ : pyGetItem (pySetItem (dimPubs1 md) "keywords"
                  (.strList ((ts ++ cs).dedup))) "journal" = .ok (.dict jd) := by
                rw [pyGetItem, hpubs2, pyLookup_append, pyLookup_dimPubs1,
                  if_pos hJf, hJ]
                rfl
              have hTitle : strLookup jd "title" = none := by
                rcases hmiss with (hm | hm) | hm
                · rw [hT] at hm
                  simp at hm
                · rw [hC] at hm
                  simp at hm
                · rw [hJ] at hm
                  simpa [Option.isNone_iff_eq_none] using hm
              refine ⟨"title", ?_⟩
              simp [format_dimensions, hg1, hg2, pyAdd, pySetOf, hgJ,
                pyIndexStr, hTitle]
            | pynone => simp at hwJ
            | str s => simp at hwJ
            | strList l => simp at hwJ
            | other n => simp at hwJ
        | pynone => simp at hwC
        | str s => simp at hwC
        | dict d => simp at hwC
        | other n => simp at hwC
    | pynone => simp at hwT
    | str s => simp at hwT
    | dict d => simp at hwT
    | other n => simp at hwT

/-- C10 witness: a record holding list-valued `terms` and `concepts` but
no `journal` key satisfies both hypotheses and raises a `KeyError`. -/
theorem c10_witness :
    dimWellTyped [("terms", PyVal.strList ["a"]),
      ("concepts", PyVal.strList [])] = true ∧
    dimMissingRequired [("terms", PyVal.strList ["a"]),
      ("concepts", PyVal.strList [])] = true ∧
    ∃ k, format_dimensions [("terms", PyVal.strList ["a"]),
      ("concepts", PyVal.strList [])] = .error (.keyError k) :=
  ⟨by decide, by decide,
    c10_format_dimensions_missing_key _ (by decide) (by decide)⟩

/-! ## EuropePMC adapter: `europepmc_title_search` (rcapi.py lines 68-93)

A parsed `<result>` entry carries the values `get_xml_node_value` extracts
for the nodes the loop reads (`None` for a missing or empty node). The
accumulating `OrderedDict` is modelled by `EpmcMeta`; a `none` field stands
for a key that was never assigned (or was assigned Python `None`). -/
/-- Python `s.split(", ")` (the exact two-character separator used at
rcapi.py line 88), by structural recursion on the character list. -/
def splitCS (acc : List Char) : List Char → List (List Char)
  | [] => [acc.reverse]
  | [c] => [(c :: acc).reverse]
  | c :: d :: rest =>
    if c = ',' ∧ d = ' ' then acc.reverse :: splitCS [] rest
    else splitCS (c :: acc) (d :: rest)

/-- Python `s.split(", ")` on strings. -/
def pySplitCommaSpace (s : String) : List String :=
  (splitCS [] s.data).map (fun l => String.mk l)

structure EpmcResult where
  title : Option String
  doi : Option String
  pmcid : Option String
  journaltitle : Option String
  authorstring : Option String
  haspdf : Option String
deriving DecidableEq, Repr

structure EpmcMeta where
  doi : Option String
  pmcid : Option String
  journal : Option String
  authors : Option (List String)
  pdf : Option String
deriving DecidableEq, Repr

def emptyEpmcMeta : EpmcMeta := ⟨none, none, none, none, none⟩

/-- Python `str.format` of one possibly-`None` value into a slot. -/
def pyFormatOpt : Option String → String
  | none => "None"
  | some s => s

/-- The synthesized URL `http://europepmc.org/articles/<pmcid>?pdf=render`
of rcapi.py line 91, with `meta["pmcid"]` formatted into the slot. -/
def epmcPdfUrl (pmcid : Option String) : String :=
  "http://europepmc.org/articles/" ++ pyFormatOpt pmcid ++ "?pdf=render"

/-- Whether a result entry passes the title gate (with a missing title the
code raises instead; see `epmcLoop`). -/
def epmcIsMatch (q : String) (r : EpmcResult) : Bool :=
  match r.title with
  | some t => title_match q t
  | none => false

/-- The body of one matching iteration (rcapi.py lines 85-91): overwrite
`doi`, `pmcid`, `journal`, `authors` (the author string split on `", "`),
and, only when `haspdf == "Y"`, synthesize `pdf` from the entry's pmcid. -/
def epmcSet (m : EpmcMeta) (r : EpmcResult) (astr : String) : EpmcMeta :=
  let m1 : EpmcMeta :=
    { m with
      doi := r.doi, pmcid := r.pmcid, journal := r.journaltitle,
      authors := some (pySplitCommaSpace astr) }
  if r.haspdf == some "Y" then { m1 with pdf := some (epmcPdfUrl r.pmcid) }
  else m1

/-- The `for result in result_list` loop (rcapi.py lines 80-91):
`title_match(title, None)` raises `AttributeError`, as does
`None.split(", ")` for a matching entry without an author string. -/
def epmcLoop (q : String) (m : EpmcMeta) : List EpmcResult → Except PyErr EpmcMeta
  | [] => .ok m
  | r :: rs =>
    match r.title with
    | none => .error (.attributeError "strip")
    | some rt =>
      if title_match q rt then
        match r.authorstring with
        | none => .error (.attributeError "split")
        | some astr => epmcLoop q (epmcSet m r astr) rs
      else epmcLoop q m rs

/-- `europepmc_title_search(title)` (rcapi.py line 68), abstracted over the
parsed result list of the API response. -/
def europepmc_title_search (q : String) (results : List EpmcResult) :
    Except PyErr EpmcMeta :=
  epmcLoop q emptyEpmcMeta results

/-- One pure loop iteration, defined for well-formed entries (titles
present; author strings present on matching entries). -/
def epmcStepPure (q : String) (m : EpmcMeta) (r : EpmcResult) : EpmcMeta :=
  if epmcIsMatch q r then epmcSet m r ((r.authorstring).getD "") else m

def epmcRun (q : String) (m : EpmcMeta) (rs : List EpmcResult) : EpmcMeta :=
  rs.foldl (epmcStepPure q) m

theorem epmcSet_doi (m : EpmcMeta) (r : EpmcResult) (astr : String) :
    (epmcSet m r astr).doi = r.doi := by
  by_cases h : r.haspdf == some "Y" <;> simp [epmcSet, h]

theorem epmcSet_pmcid (m : EpmcMeta) (r : EpmcResult) (astr : String) :
    (epmcSet m r astr).pmcid = r.pmcid := by
  by_cases h : r.haspdf == some "Y" <;> simp [epmcSet, h]

theorem epmcSet_journal (m : EpmcMeta) (r : EpmcResult) (astr : String) :
    (epmcSet m r astr).journal = r.journaltitle := by
  by_cases h : r.haspdf == some "Y" <;> simp [epmcSet, h]

theorem epmcSet_authors (m : EpmcMeta) (r : EpmcResult) (astr : String) :
    (epmcSet m r astr).authors = some (pySplitCommaSpace astr) := by
  by_cases h : r.haspdf == some "Y" <;> simp [epmcSet, h]

theorem epmcSet_pdf (m : EpmcMeta) (r : EpmcResult) (astr : String) :
    (epmcSet m r astr).pdf =
      if r.haspdf == some "Y" then some (epmcPdfUrl r.pmcid) else m.pdf := by
  by_cases h : r.haspdf == some "Y" <;> simp [epmcSet, h]

/-- On well-formed result lists the fallible loop agrees with the pure
fold. -/
theorem epmcLoop_ok (q : String) (rs : List EpmcResult) :
    ∀ m, (∀ r ∈ rs, r.title.isSome = true) →
      (∀ r ∈ rs, epmcIsMatch q r = true → r.authorstring.isSome = true) →
      epmcLoop q m rs = .ok (epmcRun q m rs) := by
  induction rs with
  | nil => intro m _ _; rfl
  | cons r rs ih =>
    intro m ht ha
    obtain ⟨t, htt⟩ := Option.isSome_iff_exists.mp (ht r (by simp))
    simp only [epmcLoop, htt, epmcRun, List.foldl_cons]
    by_cases hm : title_match q t = true
    · have hmE : epmcIsMatch q r = true := by simp [epmcIsMatch, htt, hm]
      obtain ⟨astr, hast⟩ :=
        Option.isSome_iff_exists.mp (ha r (by simp) hmE)
      rw [if_pos hm, hast]
      have hstep : epmcStepPure q m r = epmcSet m r astr := by
        simp [epmcStepPure, hmE, hast]
      rw [hstep]
      exact ih _ (fun x hx => ht x (by simp [hx]))
        (fun x hx => ha x (by simp [hx]))
    · have hmE : epmcIsMatch q r = false := by
        simpa [epmcIsMatch, htt] using hm
      rw [if_neg hm]
      have hstep : epmcStepPure q m r = m := by
        simp [epmcStepPure, hmE]
      rw [hstep]
      exact ih _ (fun x hx => ht x (by simp [hx]))
        (fun x hx => ha x (by simp [hx]))

/-- The four unconditionally-overwritten fields of the pure fold come from
the last matching entry. -/
theorem epmcRun_core (q : String) (rs : List EpmcResult) :
    ∀ m e, (rs.filter (epmcIsMatch q)).getLast? = some e →
      (epmcRun q m rs).doi = e.doi ∧ (epmcRun q m rs).pmcid = e.pmcid ∧
      (epmcRun q m rs).journal = e.journaltitle ∧
      (epmcRun q m rs).authors =
        some (pySplitCommaSpace ((e.authorstring).getD "")) := by
  induction rs using List.reverseRecOn with
  | nil => intro m e h; simp at h
  | append_singleton l r ih =>
    intro m e h
    rw [List.filter_append] at h
    by_cases hm : epmcIsMatch q r = true
    · have hfr : List.filter (epmcIsMatch q) [r] = [r] := by simp [hm]
      rw [hfr, List.getLast?_concat] at h
      injection h with h
      subst h
      have hrun : epmcRun q m (l ++ [r]) =
          epmcStepPure q (epmcRun q m l) r := by
        simp [epmcRun, List.foldl_append]
      rw [hrun, epmcStepPure, if_pos hm]
      exact ⟨epmcSet_doi _ _ _, epmcSet_pmcid _ _ _, epmcSet_journal _ _ _,
        epmcSet_authors _ _ _⟩
    · have hfr : List.filter (epmcIsMatch q) [r] = [] := by
        simp [List.filter]
        simp at hm
        simp [hm]
      rw [hfr, List.append_nil] at h
      have hrun : epmcRun q m (l ++ [r]) =
          epmcStepPure q (epmcRun q m l) r := by
        simp [epmcRun, List.foldl_append]
      rw [hrun, epmcStepPure, if_neg hm]
      exact ih m e h

/-- The `pdf` field of the pure fold comes from the last entry that both
matches and has `haspdf == "Y"`. -/
theorem epmcRun_pdf (q : String) (rs : List EpmcResult) :
    ∀ m, (epmcRun q m rs).pdf =
      match (rs.filter (fun r => epmcIsMatch q r &&
          (r.haspdf == some "Y"))).getLast? with
      | some r => some (epmcPdfUrl r.pmcid)
      | none => m.pdf := by
  induction rs using List.reverseRecOn with
  | nil => intro m; simp [epmcRun]
  | append_singleton l r ih =>
    intro m
    have hrun : epmcRun q m (l ++ [r]) =
        epmcStepPure q (epmcRun q m l) r := by
      simp [epmcRun, List.foldl_append]
    rw [hrun, List.filter_append]
    by_cases hm : epmcIsMatch q r = true
    · by_cases hy : r.haspdf == some "Y"
      · have hfr : List.filter (fun r => epmcIsMatch q r &&
            (r.haspdf == some "Y")) [r] = [r] := by simp [hm, hy]
        rw [hfr, List.getLast?_concat, epmcStepPure, if_pos hm, epmcSet_pdf,
          if_pos hy]
      · have hfr : List.filter (fun r => epmcIsMatch q r &&
            (r.haspdf == some "Y")) [r] = [] := by
          simp only [List.filter, hm, Bool.true_and]
          simp only [Bool.not_eq_true] at hy
          simp [hy]
        rw [hfr, List.append_nil, epmcStepPure, if_pos hm, epmcSet_pdf,
          if_neg hy]
        exact ih m
    · have hfr : List.filter (fun r => epmcIsMatch q r &&
          (r.haspdf == some "Y")) [r] = [] := by
        simp only [Bool.not_eq_true] at hm
        simp [List.filter, hm]
      rw [hfr, List.append_nil, epmcStepPure, if_neg hm]
      exact ih m

/-! ## Theorems for claim C6 -/

/-- C6 counterexample: the claim says the result carries exactly the fields
of the last matching entry, with nothing carried over from an earlier
matching entry. With two matching entries where only the first has
`haspdf == "Y"`, the returned record keeps the `pdf` URL synthesized from
the FIRST entry's pmcid even though the last matching entry has
`haspdf == "N"` and so contributes no pdf of its own. -/
theorem c6_cex_pdf_carries_over :
    europepmc_title_search "T"
      [⟨some "T", some "doi1", some "PMC1", some "J1", some "A One, B Two", some "Y"⟩,
       ⟨some "T", some "doi2", some "PMC2", some "J2", some "C Three", some "N"⟩] =
      .ok ⟨some "doi2", some "PMC2", some "J2", some ["C Three"],
        some "http://europepmc.org/articles/PMC1?pdf=render"⟩ ∧
    (⟨some "T", some "doi2", some "PMC2", some "J2", some "C Three",
      some "N"⟩ : EpmcResult).haspdf ≠ some "Y" := by
  exact ⟨rfl, by decide⟩

/-- C6 amended: for every result list whose entries carry titles (and
author strings on matching entries) and which has at least one matching
entry, the returned `doi`, `pmcid`, `journal`, and `authors` are those of
the LAST matching entry in list order; the `pdf` field, however, is the
one synthesized at the last entry that both matches and has
`haspdf == "Y"` — which may be an earlier matching entry, so `pdf` can
carry over. -/
theorem c6_epmc_last_match (q : String) (rs : List EpmcResult)
    (e : EpmcResult)
    (ht : ∀ r ∈ rs, r.title.isSome = true)
    (ha : ∀ r ∈ rs, epmcIsMatch q r = true → r.authorstring.isSome = true)
    (hlast : (rs.filter (epmcIsMatch q)).getLast? = some e) :
    ∃ m, europepmc_title_search q rs = .ok m ∧
      m.doi = e.doi ∧ m.pmcid = e.pmcid ∧ m.journal = e.journaltitle ∧
      m.authors = e.authorstring.map pySplitCommaSpace ∧
      m.pdf = ((rs.filter (fun r => epmcIsMatch q r &&
          (r.haspdf == some "Y"))).getLast?).map
        (fun r => epmcPdfUrl r.pmcid) := by
  have hok : europepmc_title_search q rs = .ok (epmcRun q emptyEpmcMeta rs) :=
    epmcLoop_ok q rs emptyEpmcMeta ht ha
  obtain ⟨hdoi, hpmcid, hjournal, hauthors⟩ :=
    epmcRun_core q rs emptyEpmcMeta e hlast
  have hpdf := epmcRun_pdf q rs emptyEpmcMeta
  have heMem : e ∈ rs.filter (epmcIsMatch q) := by
    refine List.mem_of_mem_getLast? (l := rs.filter (epmcIsMatch q)) ?_
    rw [hlast]
    rfl
  have heMatch : epmcIsMatch q e = true := (List.mem_filter.mp heMem).2
  have heIn : e ∈ rs := (List.mem_filter.mp heMem).1
  obtain ⟨astr, hast⟩ := Option.isSome_iff_exists.mp (ha e heIn heMatch)
  refine ⟨_, hok, hdoi, hpmcid, hjournal, ?_, ?_⟩
  · rw [hauthors, hast]
    simp
  · rw [hpdf]
    cases hgl : (rs.filter (fun r => epmcIsMatch q r &&
        (r.haspdf == some "Y"))).getLast? with
    | none => simp [emptyEpmcMeta]
    | some r => simp

/-- C6 witness: the amended theorem applied to a concrete two-entry list
in which both entries match and only the first has a PDF. -/
theorem c6_witness :
    ∃ m, europepmc_title_search "T"
      [⟨some "T", some "d1", some "P1", some "J1", some "X, Y", some "Y"⟩,
       ⟨some "T", some "d2", some "P2", some "J2", some "Z", some "N"⟩] =
      .ok m ∧
      m.doi = some "d2" ∧ m.pmcid = some "P2" ∧ m.journal = some "J2" ∧
      m.authors = some ["Z"] ∧
      m.pdf = some "http://europepmc.org/articles/P1?pdf=render" := by
  obtain ⟨m, hm, h1, h2, h3, h4, h5⟩ := c6_epmc_last_match "T"
    [⟨some "T", some "d1", some "P1", some "J1", some "X, Y", some "Y"⟩,
     ⟨some "T", some "d2", some "P2", some "J2", some "Z", some "N"⟩]
    ⟨some "T", some "d2", some "P2", some "J2", some "Z", some "N"⟩
    (by decide) (by decide) (by decide)
  refine ⟨m, hm, h1, h2, h3, ?_, ?_⟩
  · exact h4.trans rfl
  · exact h5.trans rfl

/-! ## OpenAIRE adapter: `openaire_title_search` (rcapi.py lines 109-129)

A parsed `<oaf:result>` entry carries the extracted title and url node
values, the text of each `<creator>` element, and the `classid` attribute
of each `<bestaccessright>` element. The result is `none` for the empty
`OrderedDict` (no entry matched). -/
structure OafResult where
  title : Option String
  url : Option String
  creators : List String
  bestaccessright : List String
deriving DecidableEq, Repr

structure OaMeta where
  url : Option String
  authors : List String
  openAccess : Bool
deriving DecidableEq, Repr

/-- The fields extracted from a matching entry (rcapi.py lines 124-126):
`meta["open"]` is whether `find_all` sees at least one `bestaccessright`
element whose `classid` attribute is `"OPEN"` (rcapi.py line 126). -/
def oaExtract (r : OafResult) : OaMeta :=
  { url := r.url, authors := r.creators,
    openAccess := decide (0 < (r.bestaccessright.filter
      (fun c => c == "OPEN")).length) }

/-- Whether an entry passes the title gate (a missing title makes the code
raise instead; see `openaire_title_search`). -/
def oaIsMatch (q : String) (r : OafResult) : Bool :=
  match r.title with
  | some t => title_match q t
  | none => false

/-- `openaire_title_search(title)` (rcapi.py line 109), abstracted over the
parsed result list: extract from the first matching entry and `break`;
`title_match(title, None)` raises `AttributeError`. -/
def openaire_title_search (q : String) :
    List OafResult → Except PyErr (Option OaMeta)
  | [] => .ok none
  | r :: rs =>
    match r.title with
    | none => .error (.attributeError "strip")
    | some rt =>
      if title_match q rt then .ok (some (oaExtract r))
      else openaire_title_search q rs

/-! ## Theorem for claim C7 -/

/-- C7: on every response list whose entries carry titles, the adapter
returns the url, author list, and open-access flag of the FIRST entry in
list order whose title matches (stopping there), and that flag is true iff
the entry has at least one best-access-right element classified "OPEN". -/
theorem c7_openaire_first_match (q : String) (rs : List OafResult)
    (e : OafResult)
    (ht : ∀ r ∈ rs, r.title.isSome = true)
    (hfind : rs.find? (oaIsMatch q) = some e) :
    openaire_title_search q rs = .ok (some (oaExtract e)) ∧
      ((oaExtract e).openAccess = true ↔ "OPEN" ∈ e.bestaccessright) := by
  have hiff : ∀ r : OafResult,
      ((oaExtract r).openAccess = true ↔ "OPEN" ∈ r.bestaccessright) := by
    intro r
    simp only [oaExtract, decide_eq_true_eq]
    constructor
    · intro h
      rcases List.exists_mem_of_length_pos h with ⟨x, hx⟩
      obtain ⟨hxm, hxe⟩ := List.mem_filter.mp hx
      have hxeq : x = "OPEN" := by simpa using hxe
      rw [← hxeq]
      exact hxm
    · intro h
      have : "OPEN" ∈ r.bestaccessright.filter (fun c => c == "OPEN") :=
        List.mem_filter.mpr ⟨h, by simp⟩
      exact List.length_pos.mpr (List.ne_nil_of_mem this)
  induction rs with
  | nil => simp at hfind
  | cons r rs ih =>
    obtain ⟨t, htt⟩ := Option.isSome_iff_exists.mp (ht r (by simp))
    by_cases hm : oaIsMatch q r = true
    · rw [List.find?_cons_of_pos _ hm] at hfind
      injection hfind with hfind
      subst hfind
      have hmt : title_match q t = true := by
        rw [oaIsMatch, htt] at hm
        exact hm
      refine ⟨?_, hiff _⟩
      simp only [openaire_title_search, htt]
      rw [if_pos hmt]
    · rw [List.find?_cons_of_neg _ hm] at hfind
      have hmt : title_match q t = false := by
        have := hm
        rw [oaIsMatch, htt] at this
        simpa using this
      have hrec := ih (fun x hx => ht x (by simp [hx])) hfind
      refine ⟨?_, hrec.2⟩
      simp only [openaire_title_search, htt]
      rw [if_neg (by simp [hmt])]
      exact hrec.1

/-- C7 witness: two matching candidates; the first one's fields are
returned, and its single "OPEN" access right makes the flag true. -/
theorem c7_witness :
    openaire_title_search "Deal or No Deal?"
      [⟨some "deal or no deal", some "http://a", ["A"], ["OPEN"]⟩,
       ⟨some "Deal or no deal", some "http://b", ["B"], []⟩] =
      .ok (some (oaExtract ⟨some "deal or no deal", some "http://a", ["A"],
        ["OPEN"]⟩)) ∧
      ((oaExtract ⟨some "deal or no deal", some "http://a", ["A"],
        ["OPEN"]⟩).openAccess = true ↔
        "OPEN" ∈ (⟨some "deal or no deal", some "http://a", ["A"],
          ["OPEN"]⟩ : OafResult).bestaccessright) :=
  c7_openaire_first_match "Deal or No Deal?"
    [⟨some "deal or no deal", some "http://a", ["A"], ["OPEN"]⟩,
     ⟨some "Deal or no deal", some "http://b", ["B"], []⟩]
    ⟨some "deal or no deal", some "http://a", ["A"], ["OPEN"]⟩
    (by decide) (by decide)

/-! ## Theorems for claim C3 -/

/-- No matching entry leaves the pure EuropePMC fold untouched. -/
theorem epmcRun_nomatch (q : String) (rs : List EpmcResult) (m : EpmcMeta)
    (h : ∀ r ∈ rs, epmcIsMatch q r = false) : epmcRun q m rs = m := by
  induction rs generalizing m with
  | nil => rfl
  | cons r rs ih =>
    have hr : epmcIsMatch q r = false := h r (by simp)
    have hstep : epmcStepPure q m r = m := by
      simp [epmcStepPure, hr]
    simp only [epmcRun, List.foldl_cons, hstep]
    exact ih m (fun x hx => h x (by simp [hx]))

/-- C3 counterexample: the claim says a lookup with no matching candidate
yields "no result" without raising for every provider, naming the RePEc
handle resolution and the SSRN browser search. But `repec_get_handle`
raises `AttributeError` when the search page has no result-listing element
(`soup.find` returns `None` and `.findChildren()` is called on it), and
`search_ssrn` raises Selenium's `NoSuchElementException` when the results
page has no result link. -/
theorem c3_cex_absent_listing_raises :
    repec_get_handle none = .error (.attributeError "findChildren") ∧
    search_ssrn none = .error .noSuchElement := ⟨rfl, rfl⟩

/-- C3 amended: a lookup whose title matches no candidate yields an empty
result without raising for EuropePMC and OpenAIRE (on entries carrying
titles) and for RePEc when the result listing is present but empty; however
RePEc handle resolution raises `AttributeError` when the listing element is
absent, and the SSRN browser search raises `NoSuchElementException` when no
result link exists. -/
theorem c3_no_match_no_result :
    (∀ q rs, (∀ r ∈ rs, r.title.isSome = true) →
      rs.filter (epmcIsMatch q) = [] →
      europepmc_title_search q rs = .ok emptyEpmcMeta) ∧
    (∀ q rs, (∀ r ∈ rs, r.title.isSome = true) →
      rs.find? (oaIsMatch q) = none →
      openaire_title_search q rs = .ok none) ∧
    repec_get_handle (some []) = .ok none ∧
    repec_get_handle none = .error (.attributeError "findChildren") ∧
    search_ssrn none = .error .noSuchElement := by
  refine ⟨?_, ?_, rfl, rfl, rfl⟩
  · intro q rs ht hfil
    have hnom : ∀ r ∈ rs, epmcIsMatch q r = false := by
      intro r hr
      have := List.filter_eq_nil_iff.mp hfil r hr
      simpa using this
    have hok := epmcLoop_ok q rs emptyEpmcMeta ht
      (fun r hr hm => absurd hm (by simp [hnom r hr]))
    show epmcLoop q emptyEpmcMeta rs = .ok emptyEpmcMeta
    rw [hok, epmcRun_nomatch q rs emptyEpmcMeta hnom]
  · intro q rs ht hfind
    induction rs with
    | nil => rfl
    | cons r rs ih =>
      obtain ⟨t, htt⟩ := Option.isSome_iff_exists.mp (ht r (by simp))
      have hnm : ¬(oaIsMatch q r = true) := by
        intro hm
        rw [List.find?_cons_of_pos _ hm] at hfind
        exact Option.noConfusion hfind
      have hmt : title_match q t = false := by
        have := hnm
        rw [oaIsMatch, htt] at this
        simpa using this
      rw [List.find?_cons_of_neg _ hnm] at hfind
      simp only [openaire_title_search, htt]
      rw [if_neg (by simp [hmt])]
      exact ih (fun x hx => ht x (by simp [hx])) hfind

/-- C3 witness: the amended theorem at concrete inputs — a one-entry
EuropePMC list and a one-entry OpenAIRE list whose titles do not match the
query, and the closed RePEc/SSRN facts restated through the theorem. -/
theorem c3_witness :
    europepmc_title_search "a" [⟨some "b", none, none, none, none, none⟩] =
      .ok emptyEpmcMeta ∧
    openaire_title_search "a" [⟨some "b", none, [], []⟩] = .ok none ∧
    repec_get_handle (some []) = .ok none :=
  ⟨c3_no_match_no_result.1 "a" _ (by decide) (by decide),
   c3_no_match_no_result.2.1 "a" _ (by decide) (by decide),
   c3_no_match_no_result.2.2.1⟩

/-! ## Normalization analysis for claim C9

The second application of `clean_title` can only act through its strip
phase: the first application already collapsed and lowered everything, but
non-space whitespace at the boundary (which `strip(" \"'?!.,")` does not
remove) becomes a leading/trailing space that only the second pass strips.
The predicate `wsNormal` captures the shape of collapsed output: every
whitespace character is a plain space and no two whitespace characters are
adjacent. -/
def goodPair (a b : Char) : Prop :=
  pyIsSpace a = true → pyIsSpace b = true → False

def wsNormal (l : List Char) : Prop :=
  (∀ c ∈ l, pyIsSpace c = true → c = ' ') ∧ l.Chain' goodPair

theorem pyLowerChar_idem (c : Char) :
    pyLowerChar (pyLowerChar c) = pyLowerChar c := by
  cases h : upperLowerTable.find? (fun p => p.1 == c) with
  | none =>
    have hc : pyLowerChar c = c := by rw [pyLowerChar, h]
    rw [hc, hc]
  | some p =>
    have hp : p ∈ upperLowerTable := List.mem_of_find?_eq_some h
    have hc : pyLowerChar c = p.2 := by rw [pyLowerChar, h]
    have hnone : upperLowerTable.find? (fun q => q.1 == p.2) = none := by
      rw [List.find?_eq_none]
      intro q hq
      have : ∀ q ∈ upperLowerTable, ∀ p ∈ upperLowerTable,
          (q.1 == p.2) = false := by decide
      simp [this q hq p hp]
    rw [hc, pyLowerChar, hnone]

theorem pyIsSpace_pyLowerChar (c : Char) :
    pyIsSpace (pyLowerChar c) = pyIsSpace c := by
  cases h : upperLowerTable.find? (fun q => q.1 == c) with
  | none => rw [pyLowerChar, h]
  | some pr =>
    have hp : pr ∈ upperLowerTable := List.mem_of_find?_eq_some h
    have hpc := List.find?_some h
    have hc : pr.1 = c := by simpa using hpc
    have htab : ∀ q ∈ upperLowerTable,
        pyIsSpace q.1 = false ∧ pyIsSpace q.2 = false := by decide
    rw [pyLowerChar, h, (htab pr hp).2, ← hc, (htab pr hp).1]

theorem collapseAux_true_head (l : List Char) :
    ∀ d, (collapseAux true l).head? = some d → pyIsSpace d = false := by
  induction l with
  | nil => intro d h; exact Option.noConfusion h
  | cons c cs ih =>
    intro d h
    by_cases hws : pyIsSpace c = true
    · rw [show collapseAux true (c :: cs) = collapseAux true cs by
        simp [collapseAux, hws]] at h
      exact ih d h
    · rw [show collapseAux true (c :: cs) = c :: collapseAux false cs by
        simp [collapseAux, hws]] at h
      injection h with h
      subst h
      simpa using hws

theorem collapseAux_wsNormal (l : List Char) :
    ∀ b, wsNormal (collapseAux b l) := by
  induction l with
  | nil => intro b; exact ⟨by simp [collapseAux], by simp [collapseAux]⟩
  | cons c cs ih =>
    intro b
    by_cases hws : pyIsSpace c = true
    · cases b with
      | true =>
        rw [show collapseAux true (c :: cs) = collapseAux true cs by
          simp [collapseAux, hws]]
        exact ih true
      | false =>
        rw [show collapseAux false (c :: cs) = ' ' :: collapseAux true cs by
          simp [collapseAux, hws]]
        refine ⟨?_, ?_⟩
        · intro x hx hxs
          rcases List.mem_cons.mp hx with h | h
          · exact h
          · exact (ih true).1 x h hxs
        · rw [List.chain'_cons']
          refine ⟨?_, (ih true).2⟩
          intro y hy
          intro _ hys
          rw [collapseAux_true_head cs y hy] at hys
          exact Bool.noConfusion hys
    · rw [show collapseAux b (c :: cs) = c :: collapseAux false cs by
        cases b <;> simp [collapseAux, hws]]
      refine ⟨?_, ?_⟩
      · intro x hx hxs
        rcases List.mem_cons.mp hx with h | h
        · subst h; exact absurd hxs hws
        · exact (ih false).1 x h hxs
      · rw [List.chain'_cons']
        refine ⟨?_, (ih false).2⟩
        intro y _
        intro h1 _
        exact hws h1

theorem collapseAux_fixed (l : List Char) (h : wsNormal l) :
    collapseAux false l = l := by
  induction l with
  | nil => rfl
  | cons c cs ih =>
    obtain ⟨hall, hchain⟩ := h
    obtain ⟨hhead, htail⟩ := List.chain'_cons'.mp hchain
    by_cases hws : pyIsSpace c = true
    · have hc : c = ' ' := hall c (by simp) hws
      subst hc
      rw [show collapseAux false (' ' :: cs) = ' ' :: collapseAux true cs by
        simp [collapseAux, hws]]
      cases cs with
      | nil => rfl
      | cons d cs' =>
        have hd : pyIsSpace d = false := by
          by_contra hd
          simp only [Bool.not_eq_false] at hd
          exact hhead d (by simp) hws hd
        have htl : collapseAux false (d :: cs') = d :: cs' := by
          refine ih ⟨?_, htail⟩
          intro x hx
          exact hall x (by simp [hx])
        rw [show collapseAux true (d :: cs') = d :: collapseAux false cs' by
          simp [collapseAux, hd]]
        rw [show collapseAux false (d :: cs') = d :: collapseAux false cs' by
          simp [collapseAux, hd]] at htl
        injection htl with _ htl'
        rw [htl']
    · rw [show collapseAux false (c :: cs) = c :: collapseAux false cs by
        simp [collapseAux, hws]]
      have htl : collapseAux false cs = cs := by
        refine ih ⟨?_, htail⟩
        intro x hx
        exact hall x (by simp [hx])
      rw [htl]

theorem wsNormal_suffix (l₁ l₂ : List Char) (h : l₁ <:+ l₂)
    (hn : wsNormal l₂) : wsNormal l₁ :=
  ⟨fun c hc => hn.1 c (List.Sublist.mem hc h.sublist), hn.2.suffix h⟩

theorem wsNormal_reverse (l : List Char) (hn : wsNormal l) :
    wsNormal l.reverse := by
  refine ⟨?_, ?_⟩
  · intro c hc
    exact hn.1 c (List.mem_reverse.mp hc)
  · rw [List.chain'_reverse]
    exact hn.2.imp (fun a b hab h1 h2 => hab h2 h1)

theorem wsNormal_stripList (l : List Char) (hn : wsNormal l) :
    wsNormal (stripList l) := by
  rw [stripList]
  exact wsNormal_reverse _ (wsNormal_suffix _ _ (List.dropWhile_suffix _)
    (wsNormal_reverse _ (wsNormal_suffix _ _ (List.dropWhile_suffix _) hn)))

theorem mem_stripList (l : List Char) (c : Char) (h : c ∈ stripList l) :
    c ∈ l := by
  rw [stripList, List.mem_reverse] at h
  have h1 := List.Sublist.mem h (List.dropWhile_sublist _)
  rw [List.mem_reverse] at h1
  exact List.Sublist.mem h1 (List.dropWhile_sublist _)

theorem map_pyLowerChar_fixed (l : List Char)
    (h : ∀ c ∈ l, pyLowerChar c = c) : l.map pyLowerChar = l := by
  induction l with
  | nil => rfl
  | cons c cs ih =>
    rw [List.map_cons, h c (by simp), ih (fun x hx => h x (by simp [hx]))]

theorem wsNormal_map_pyLowerChar (l : List Char) (hn : wsNormal l) :
    wsNormal (l.map pyLowerChar) := by
  refine ⟨?_, ?_⟩
  · intro c hc hcs
    obtain ⟨d, hd, rfl⟩ := List.mem_map.mp hc
    rw [pyIsSpace_pyLowerChar] at hcs
    have := hn.1 d hd hcs
    rw [this]
    rfl
  · rw [List.chain'_map]
    refine hn.2.imp ?_
    intro a b hab h1 h2
    rw [pyIsSpace_pyLowerChar] at h1 h2
    exact hab h1 h2

/-! ## Theorems for claim C9 -/

/-- C9 counterexample: the claim says `clean_title` is idempotent on every
string. At `"\ta"` the first application yields `" a"` (tab is whitespace
for the collapse step but is not in the strip set), and the second
application strips the resulting leading space, yielding `"a"`. -/
theorem c9_cex_not_idempotent :
    clean_title (clean_title "\ta") ≠ clean_title "\ta" := by decide

/-- C9 amended: `clean_title` is a total function and maps the empty string
to the empty string, but it is idempotent only up to stripping: a second
application coincides with stripping the strip-set characters from the ends
of the first result, so it is the identity on `clean_title s` exactly when
that result has no leading/trailing strip characters (which fails, e.g.,
when non-space boundary whitespace was collapsed into a space). -/
theorem c9_clean_title_second_pass :
    (∀ s, clean_title (clean_title s) = pyStrip (clean_title s)) ∧
    clean_title "" = "" := by
  refine ⟨?_, rfl⟩
  intro s
  have hdata : (clean_title s).data =
      (collapseWs (stripList s.data)).map pyLowerChar := rfl
  have h1 : wsNormal (clean_title s).data := by
    rw [hdata]
    exact wsNormal_map_pyLowerChar _ (collapseAux_wsNormal _ false)
  have h2 : wsNormal (stripList (clean_title s).data) :=
    wsNormal_stripList _ h1
  have h3 : collapseWs (stripList (clean_title s).data) =
      stripList (clean_title s).data := collapseAux_fixed _ h2
  have h4 : ∀ c ∈ stripList (clean_title s).data, pyLowerChar c = c := by
    intro c hc
    have hct : c ∈ (clean_title s).data := mem_stripList _ _ hc
    rw [hdata] at hct
    obtain ⟨d, _, rfl⟩ := List.mem_map.mp hct
    exact pyLowerChar_idem d
  show pyLower (String.mk (collapseWs (pyStrip (clean_title s)).data)) =
    pyStrip (clean_title s)
  have h5 : (pyStrip (clean_title s)).data =
      stripList (clean_title s).data := rfl
  rw [pyStrip, pyLower]
  show String.mk ((String.mk (collapseWs
    (stripList (clean_title s).data))).data.map pyLowerChar) =
    String.mk (stripList (clean_title s).data)
  rw [show (String.mk (collapseWs (stripList (clean_title s).data))).data =
    collapseWs (stripList (clean_title s).data) from rfl]
  rw [h3, map_pyLowerChar_fixed _ h4]
